import Mathlib

/-!
Verification of the `mandy` command-line parsing library.

The development shallowly embeds the parsing core of the library:
the typed value boxes of `value.go`, the flag registry and the
token-consuming dispatcher of the command file, and the error-policy
gate.  Go's mutation through `*Flag` pointers is modelled by explicit
state passing on a `Command` record; machine integers are modelled as
`Int`/`Nat` with the explicit bounds used by `strconv` (a 64-bit
platform is assumed, so the word-sized `int`/`uint` boxes use 64-bit
bounds); fallible operations return an explicit error component.

Presentation-only fields of the Go `Command` struct (output writer,
usage closures, format string, URL, aliases, help tree, lambda bit)
are omitted: no verified operation reads them.  The `parent` pointer
is likewise omitted: we model the `Parse` branch that receives an
explicit argument list.
-/

namespace Mandy

/-! ### Errors of `strconv` (errors.go's `numError` distinguishes the two) -/

/-- The two error classes of Go's `strconv.NumError`: `ErrSyntax`
(`malformed`) and `ErrRange` (`outOfRange`). -/
inductive NumErr where
  | malformed
  | outOfRange
deriving DecidableEq

/-! ### Go `strconv` routines used by `value.go`

The boxes call `strconv.ParseBool`, `strconv.ParseInt(s, 0, bits)` and
`strconv.ParseUint(s, 0, bits)`.  These are external standard-library
functions (not part of the repository), modelled here faithfully to
their implementation: base detection for the `0b`/`0o`/`0x`/leading-`0`
forms, digit-separator underscores, per-digit overflow checks that
clamp to the extreme value on range errors, and the convention that a
syntax error carries the value 0. -/

/-- Go's `lower(c) = c | ('x'-'X')` applied to ASCII letters. -/
def lowerAscii (c : Char) : Char :=
  if 'A' ≤ c ∧ c ≤ 'Z' then Char.ofNat (c.toNat + 32) else c

/-- One step of `strconv`'s underscore validity scan.  `saw` is `'^'`
at the beginning, `'0'` after a digit or base-marker, `'_'` after an
underscore and `'!'` after anything else. -/
def uokLoop (hex : Bool) (saw : Char) : List Char → Bool
  | [] => saw ≠ '_'
  | c :: rest =>
    if ('0' ≤ c ∧ c ≤ '9') ∨ (hex ∧ 'a' ≤ lowerAscii c ∧ lowerAscii c ≤ 'f') then
      uokLoop hex '0' rest
    else if c = '_' then
      if saw ≠ '0' then false else uokLoop hex '_' rest
    else if saw = '_' then false
    else uokLoop hex '!' rest

/-- `strconv.underscoreOK`: underscores must sit between base markers
or digits. -/
def underscoreOK (s : List Char) : Bool :=
  let s1 := match s with
    | c :: rest => if c = '-' ∨ c = '+' then rest else s
    | [] => s
  match s1 with
  | '0' :: b :: rest =>
    if lowerAscii b = 'b' ∨ lowerAscii b = 'o' ∨ lowerAscii b = 'x' then
      uokLoop (lowerAscii b = 'x') '0' rest
    else
      uokLoop false '^' s1
  | _ => uokLoop false '^' s1

/-- The digit-decoding switch of `strconv.ParseUint`'s loop:
`0`–`9`, then case-folded `a`–`z`. -/
def decodeDigit (ch : Char) : Option Nat :=
  if '0' ≤ ch ∧ ch ≤ '9' then some (ch.toNat - '0'.toNat)
  else
    let lc := lowerAscii ch
    if 'a' ≤ lc ∧ lc ≤ 'z' then some (lc.toNat - 'a'.toNat + 10) else none

/-- The digit-consuming loop of `strconv.ParseUint`.  Returns the
accumulated value, whether an underscore was skipped, and the error:
an invalid digit yields `(0, malformed)` immediately, overflow past
`maxVal` yields `(maxVal, outOfRange)` immediately. -/
def puLoop (base maxVal cutoff : Nat) (sawU : Bool) (n : Nat) :
    List Char → Nat × Bool × Option NumErr
  | [] => (n, sawU, none)
  | ch :: rest =>
    if ch = '_' then puLoop base maxVal cutoff true n rest
    else
      match decodeDigit ch with
      | none => (0, sawU, some NumErr.malformed)
      | some d =>
        if base ≤ d then (0, sawU, some NumErr.malformed)
        else if cutoff ≤ n then (maxVal, sawU, some NumErr.outOfRange)
        else
          let n1 := n * base + d
          if maxVal < n1 then (maxVal, sawU, some NumErr.outOfRange)
          else puLoop base maxVal cutoff sawU n1 rest

/-- Base detection of `strconv.ParseUint` with base argument 0: the
`0b`/`0o`/`0x` markers (only when at least one further character
follows), a bare leading `0` meaning octal, decimal otherwise. -/
def pickBase : List Char → Nat × List Char
  | '0' :: c2 :: rest =>
    if rest ≠ [] ∧ lowerAscii c2 = 'b' then (2, rest)
    else if rest ≠ [] ∧ lowerAscii c2 = 'o' then (8, rest)
    else if rest ≠ [] ∧ lowerAscii c2 = 'x' then (16, rest)
    else (8, c2 :: rest)
  | '0' :: [] => (8, [])
  | s => (10, s)

/-- `strconv.ParseUint(s, 0, 64)` (also the word-sized case on a
64-bit platform): base detection, then the digit loop, then the
deferred underscore check. -/
def goParseUint64 (s : List Char) : Nat × Option NumErr :=
  match s with
  | [] => (0, some NumErr.malformed)
  | _ =>
    let pick := pickBase s
    let maxVal : Nat := 2 ^ 64 - 1
    let r := puLoop pick.1 maxVal (maxVal / pick.1 + 1) false 0 pick.2
    match r.2.2 with
    | some e => (r.1, some e)
    | none =>
      if r.2.1 ∧ ¬ underscoreOK s then (0, some NumErr.malformed) else (r.1, none)

/-- The signed-bounds tail of `strconv.ParseInt`: with
`cutoff = 1 << (bitSize-1)`, a magnitude at or past the cutoff clamps
to the corresponding extreme with a range error; otherwise the signed
value together with any range error `ParseUint` already reported. -/
def signClamp (neg : Bool) (un : Nat) (e : Option NumErr) : Int × Option NumErr :=
  if ¬ neg ∧ 2 ^ 63 ≤ un then (((2 ^ 63 - 1 : Nat) : Int), some NumErr.outOfRange)
  else if neg ∧ 2 ^ 63 < un then (-((2 : Int) ^ 63), some NumErr.outOfRange)
  else (if neg then -(un : Int) else (un : Int), e)

/-- `strconv.ParseInt(s, 0, 64)`: strip an optional sign, parse the
magnitude with `ParseUint`, then apply the signed bounds (clamping to
the extreme value on a range error). -/
def goParseInt64 (s : String) : Int × Option NumErr :=
  match s.data with
  | [] => (0, some NumErr.malformed)
  | c :: rest =>
    let neg : Bool := c = '-'
    let body := if c = '+' ∨ c = '-' then rest else c :: rest
    let r := goParseUint64 body
    match r.2 with
    | some NumErr.malformed => (0, some NumErr.malformed)
    | e => signClamp neg r.1 e

/-- `strconv.ParseBool`: the exact literal set, returning `false`
together with an error flag on anything else. -/
def goParseBool (s : String) : Bool × Bool :=
  if s = "1" ∨ s = "t" ∨ s = "T" ∨ s = "true" ∨ s = "TRUE" ∨ s = "True" then (true, false)
  else if s = "0" ∨ s = "f" ∨ s = "F" ∨ s = "false" ∨ s = "FALSE" ∨ s = "False" then (false, false)
  else (false, true)

/-! ### Value boxes (`value.go`)

A `Val` is the tagged state of one flag's value box together with its
type.  The duration and float64 boxes are not modelled: no settled
claim depends on them (the float box's text round trip is IEEE-754
shortest-decimal formatting, outside this embedding).  The `funcV`
box carries the callback, which returns `some message` to signal an
error as in `Func`'s contract. -/

inductive Val where
  | boolV (b : Bool)
  | intV (i : Int)
  | int64V (i : Int)
  | uintV (n : Nat)
  | uint64V (n : Nat)
  | stringV (s : String)
  | funcV (f : String → Option String)

/-- `errParse` of errors.go, as the message carried by the error. -/
def errParseMsg : String := "parse error"

/-- `errRange` of errors.go. -/
def errRangeMsg : String := "value out of range"

/-- errors.go's `numError`: `ErrSyntax` becomes `errParse`,
`ErrRange` becomes `errRange`. -/
def numErrMsg : NumErr → String
  | NumErr.malformed => errParseMsg
  | NumErr.outOfRange => errRangeMsg

/-- The `IsBool` method of the boxes: true only for the bool box. -/
def Val.IsBool : Val → Bool
  | Val.boolV _ => true
  | _ => false

/-- The `String()` rendering method of the boxes.  `FormatBool`,
`Itoa`/`FormatInt`/`FormatUint` in base 10, the raw string, and the
empty string for the function box. -/
def Val.render : Val → String
  | Val.boolV b => if b then "true" else "false"
  | Val.intV i => toString i
  | Val.int64V i => toString i
  | Val.uintV n => toString n
  | Val.uint64V n => toString n
  | Val.stringV s => s
  | Val.funcV _ => ""

/-- The `Set` method of the boxes.  As in `value.go`, every numeric
and boolean box stores the converter's result unconditionally — also
when the conversion failed — and returns the (`numError`-mapped)
error; the string box always succeeds; the function box invokes the
callback and stores nothing. -/
def Val.Set : Val → String → Val × Option String
  | Val.boolV _, s =>
    let r := goParseBool s
    (Val.boolV r.1, if r.2 then some errParseMsg else none)
  | Val.intV _, s =>
    let r := goParseInt64 s
    (Val.intV r.1, r.2.map numErrMsg)
  | Val.int64V _, s =>
    let r := goParseInt64 s
    (Val.int64V r.1, r.2.map numErrMsg)
  | Val.uintV _, s =>
    let r := goParseUint64 s.data
    (Val.uintV r.1, r.2.map numErrMsg)
  | Val.uint64V _, s =>
    let r := goParseUint64 s.data
    (Val.uint64V r.1, r.2.map numErrMsg)
  | Val.stringV _, s => (Val.stringV s, none)
  | Val.funcV f, s => (Val.funcV f, f s)

/-- The dispatcher's long-flag test `flag.Value.Get().(boolFlag)` with
its `f != nil` guard.  `Get` returns the unboxed primitive (`bool`,
`int`, …), and no primitive implements the `boolFlag` interface; the
only box whose `Get` returns a method-bearing value is the function
box (`funcValue.Get` returns the `funcValue` itself, which has the
`Set`/`String`/`IsBool` methods, and the non-nil interface makes the
`f != nil` guard pass).  The test therefore holds exactly for the
function box. -/
def Val.getBoolFlag : Val → Bool
  | Val.funcV _ => true
  | _ => false

/-! ### Flags, commands and the registry -/

/-- A registered flag (`Flag` struct): name, usage text, the default
rendered as text at registration time, the short-eligibility bit and
the owned value box. -/
structure Flag where
  name : String
  description : String
  defValue : String
  short : Bool
  value : Val

/-- The four error policies of errors.go, in declaration order. -/
inductive ErrorPolicy where
  | ContinueOnError
  | ExitOnError
  | PanicOnError
  | LogOnError

/-- A command node.  `formal` is the registry (a Go map keyed by the
unique flag name; modelled as a list in registration order), `actual`
the set of names marked as set, `args` the current token/argument
slice, `children` the names of registered child commands (the source
stores full child `Command`s, but no verified operation reads more
than existence, and `parseOne`/`Parse` read nothing of them at all). -/
structure Command where
  name : String
  formal : List Flag
  actual : List String
  args : List String
  children : List String
  errorPolicy : ErrorPolicy
  parsed : Bool

/-- `Command.accepts`: return the full name of the formal flag the
candidate token matches — the first character of a short-eligible
flag's name, or an exact name — and `""` when nothing matches.  (The
Go code compares against the first byte `k[:1]`; names are assumed
non-empty — `accepts` on a command with an empty-named short flag
would panic in Go.) -/
def Command.accepts (c : Command) (nm : String) : String :=
  match c.formal.find? (fun f => (f.short && nm == f.name.take 1) || nm == f.name) with
  | some f => f.name
  | none => ""

/-- The map lookup `c.formal[k]`. -/
def Command.lookupFlag (c : Command) (k : String) : Option Flag :=
  c.formal.find? (fun f => f.name == k)

/-- Overwrite the value box of the flag named `n` (Go mutates the
shared `*Flag`; names are unique in `formal`). -/
def Command.setFlagVal (c : Command) (n : String) (v : Val) : Command :=
  { c with formal := c.formal.map (fun f => if f.name == n then { f with value := v } else f) }

/-- The value currently held by the flag named `n`. -/
def Command.flagVal (c : Command) (n : String) : Option Val :=
  (c.lookupFlag n).map (fun f => f.value)

/-- Character membership, `strings.Contains(s, <one-char sep>)`. -/
def hasChar (s : String) (c : Char) : Bool :=
  s.data.contains c

/-- `strings.HasPrefix` on exploded characters (ASCII patterns only
are used). -/
def startsWithChars : List Char → List Char → Bool
  | [], _ => true
  | _ :: _, [] => false
  | p :: ps, c :: cs => p == c && startsWithChars ps cs

/-- Split at the first `=`. -/
def splitPairChars : List Char → List Char × List Char
  | [] => ([], [])
  | c :: rest =>
    if c = '=' then ([], rest)
    else
      let r := splitPairChars rest
      (c :: r.1, r.2)

/-- `strings.SplitN(arg, "=", 2)`: the part before the first `=` and
everything after it. -/
def splitPair (s : String) : String × String :=
  let r := splitPairChars s.data
  (String.mk r.1, String.mk r.2)

/-! ### Registration (`Command.Var`, `NewCommand`)

`Var` panics on a malformed name, a duplicate name or a short-name
collision; panics are modelled as `Except.error` carrying the panic
message.  The global mutable `HelpName` is threaded as the explicit
first parameter `helpName`. -/

/-- The collision test of `Var`'s short-eligibility scan: an existing
flag other than the new one, short-eligible, whose name begins with
the same byte (`other.Name[0] == flag.Name[0]`; names are non-empty
wherever this runs in Go, which would panic on an empty name). -/
def collides (newName : String) (f : Flag) : Bool :=
  f.name != newName && f.name.data.head? == newName.data.head? && f.short

/-- The scan over already-registered flags made by `Var` when the new
flag requests short-eligibility: a colliding flag is a fatal error,
unless it is the designated help flag, whose short-eligibility is
silently revoked. -/
def shortScan (helpName newName : String) : List Flag → Except String (List Flag)
  | [] => Except.ok []
  | f :: rest =>
    if collides newName f then
      if f.name == helpName then
        match shortScan helpName newName rest with
        | Except.ok r => Except.ok ({ f with short := false } :: r)
        | Except.error e => Except.error e
      else
        Except.error ("Short name collision between \"" ++ newName ++ "\" and \"" ++ f.name ++ "\" flags")
    else
      match shortScan helpName newName rest with
      | Except.ok r => Except.ok (f :: r)
      | Except.error e => Except.error e

/-- `Command.Var`: reject names starting with `-` or containing `=`,
reject duplicates, run the short-collision scan, then insert the new
flag with its default rendered into `defValue`.  The global mutable
`HelpName` is the explicit `helpName` parameter. -/
def Command.Var (c : Command) (helpName : String) (v : Val) (nm description : String)
    (short : Bool) : Except String Command :=
  if startsWithChars ['-'] nm.data then
    Except.error ("flag \"" ++ nm ++ "\" begins with -")
  else if hasChar nm '=' then
    Except.error ("flag \"" ++ nm ++ "\" contains =")
  else if c.formal.any (fun f => f.name == nm) then
    Except.error
      (if c.name == "" then "flag redefined: " ++ nm else c.name ++ " flag redefined: " ++ nm)
  else
    let flag : Flag :=
      { name := nm, description := description, defValue := v.render, short := short, value := v }
    if short then
      match shortScan helpName nm c.formal with
      | Except.ok fs => Except.ok { c with formal := fs ++ [flag] }
      | Except.error e => Except.error e
    else
      Except.ok { c with formal := c.formal ++ [flag] }

/-- `NewCommand`: a fresh command with the given name and error
policy; unless the name IS the designated help-flag name, a boolean,
short-eligible help flag (default `false`) is registered.  (The
`Format` and URL fields of the source are presentation-only and
omitted.) -/
def NewCommand (helpName nm : String) (p : ErrorPolicy) : Except String Command :=
  let c : Command :=
    { name := nm, formal := [], actual := [], args := [], children := [],
      errorPolicy := p, parsed := false }
  if nm != helpName then
    c.Var helpName (Val.boolV false) helpName "print this message" true
  else
    Except.ok c

/-! ### The dispatcher (`Command.parseOne`, `Command.Parse`)

`parseOne` pops one token and takes one decision.  Its Go signature
also returns a `*Command` child to descend into, but every `return`
statement in the source yields `nil` there, so the component (and its
dead consumer `if child != nil { return child.Parse() }` in `Parse`)
is omitted from the embedding. -/

/-- UTF-8 byte width of a character (the Go `range` loop over a string
advances its index by this much). -/
def csize (c : Char) : Nat :=
  if c.toNat < 0x80 then 1
  else if c.toNat < 0x800 then 2
  else if c.toNat < 0x10000 then 3
  else 4

/-- The per-character scan of a short-flag cluster token.  `i` is the
byte index of the current character inside the trimmed token and
`total` the token's byte length, mirroring Go's
`for i, flagName := range flagNames` with its `i == len(flagNames)-1`
last-position test.  A boolean flag is set to `"true"` (the returned
error ignored, as in the source); a non-boolean flag in last position
consumes the next token of the stream as its value (again ignoring
`Set`'s error), and in any other position is an error. -/
def Command.shortCluster (c : Command) (i total : Nat) :
    List Char → Command × Bool × Option String
  | [] => (c, true, none)
  | ch :: rest =>
    match c.lookupFlag (c.accepts (String.singleton ch)) with
    | none => (c, false, some ("unknown flag: " ++ String.singleton ch))
    | some f =>
      if f.value.IsBool then
        Command.shortCluster (c.setFlagVal f.name (f.value.Set "true").1) (i + csize ch) total rest
      else if i = total - 1 then
        match c.args with
        | [] => (c, false, some ("missing value for non-boolean flag: " ++ String.singleton ch))
        | v0 :: more =>
          Command.shortCluster
            ({ c.setFlagVal f.name (f.value.Set v0).1 with args := more })
            (i + csize ch) total rest
      else (c, false, some ("unexpected value for boolean flag: " ++ String.singleton ch))

/-- `Command.parseOne`: pop the leading token and classify it.
A token containing `=` is split into name/value — the name is passed
to `accepts` as-is, dashes included; a `--`-led token must resolve to
a flag whose `Get()` satisfies the `boolFlag` assertion (see
`Val.getBoolFlag`); a `-`-led token is scanned as a cluster of short
flags; anything else (including a token past all three tests) is
consumed and reported as not-a-flag (`seen = false`, no error).  No
branch inserts into the `actual` set. -/
def Command.parseOne (c : Command) : Command × Bool × Option String :=
  match c.args with
  | [] => (c, false, none)
  | arg :: rest =>
    let c1 : Command := { c with args := rest }
    if hasChar arg '=' then
      let p := splitPair arg
      match c1.lookupFlag (c1.accepts p.1) with
      | none => (c1, false, some ("unknown flag: " ++ p.1))
      | some f =>
        if ¬ f.value.IsBool then
          match f.value.Set p.2 with
          | (v, none) => (c1.setFlagVal f.name v, true, none)
          | (v, some _) =>
            (c1.setFlagVal f.name v, false,
              some ("invalid value for flag " ++ p.1 ++ ": " ++ p.2))
        else
          (c1, false, some ("unexpected value for boolean flag: " ++ p.1))
    else if startsWithChars ['-', '-'] arg.data then
      let nm := arg.drop 2
      match c1.lookupFlag (c1.accepts nm) with
      | none => (c1, false, some ("unknown flag: " ++ nm))
      | some f =>
        if f.value.getBoolFlag then
          (c1.setFlagVal f.name (f.value.Set "true").1, true, none)
        else
          (c1, false, some ("missing value for non-boolean flag: " ++ nm))
    else if startsWithChars ['-'] arg.data then
      let body := arg.drop 1
      c1.shortCluster 0 body.utf8ByteSize body.data
    else
      (c1, false, none)

/-- Outcome of one call to the `Handle` gate: return normally (with
the messages written to stderr), terminate the process, or panic. -/
inductive HandleOut where
  | proceed (log : List String)
  | exitCode (code : Nat) (log : List String)
  | fatal (msg : String)

/-- `Command.Handle`: a no-op on a nil error; otherwise dispatch on
the policy.  The switch in the source has cases for the first three
policies only — `LogOnError` falls into the `default` branch, which
panics with "unrecognized error policy". -/
def Command.Handle (c : Command) (err : Option String) : HandleOut :=
  match err with
  | none => HandleOut.proceed []
  | some e =>
    match c.errorPolicy with
    | ErrorPolicy.ContinueOnError => HandleOut.proceed [e]
    | ErrorPolicy.ExitOnError => HandleOut.exitCode 1 [e]
    | ErrorPolicy.PanicOnError => HandleOut.fatal e
    | ErrorPolicy.LogOnError => HandleOut.fatal "unrecognized error policy"

/-- Result of a `Parse` run: normal return, `os.Exit` (the deferred
`setparsed` does not run), or a propagating panic. -/
inductive ParseResult where
  | done (c : Command) (log : List String)
  | exited (code : Nat) (log : List String)
  | panicked (msg : String) (log : List String)

/-- The `for` loop of `Parse`: take one decision per iteration;
`seen` tokens continue the loop, a nil error breaks it, and any other
error is routed through the `Handle` gate before the loop continues.
One unit of fuel is spent per iteration; `parseOne` consumes at least
one token whenever any remain, so `args.length + 1` units always
suffice. -/
def Command.parseLoop : Nat → Command → List String → ParseResult
  | 0, c, log => ParseResult.done c log
  | Nat.succ fuel, c, log =>
    match c.parseOne with
    | (c', seen, err) =>
      if seen then Command.parseLoop fuel c' log
      else
        match err with
        | none => ParseResult.done { c' with parsed := true } log
        | some e =>
          match c'.Handle (some e) with
          | HandleOut.proceed l => Command.parseLoop fuel c' (log ++ l)
          | HandleOut.exitCode code l => ParseResult.exited code (log ++ l)
          | HandleOut.fatal m => ParseResult.panicked m log

/-- `Command.Parse` on an explicit argument list (the source falls
back to `os.Args[1:]` — or, for a child, to the parent's remaining
arguments — when no explicit list is given; the token stream is
modelled explicitly). -/
def Command.Parse (c : Command) (args : List String) : ParseResult :=
  Command.parseLoop (args.length + 1) { c with args := args } []

/-! ### Concrete commands used to settle the claims -/

/-- The help flag that `NewCommand` registers: boolean, default
`false`, short-eligible, named by the designated help-flag name
(`"help"` at initialization). -/
def helpFlag : Flag :=
  { name := "help", description := "print this message", defValue := "false",
    short := true, value := Val.boolV false }

/-- A command with an int flag `count` (default 5), as produced by
`NewCommand("demo", ContinueOnError)` followed by
`Int(&p, "count", 5, "a count", false)`. -/
def countCmd : Command :=
  { name := "demo",
    formal := [helpFlag,
      { name := "count", description := "a count", defValue := "5",
        short := false, value := Val.intV 5 }],
    actual := [], args := [], children := [],
    errorPolicy := ErrorPolicy.ContinueOnError, parsed := false }

/-- The boolean short-eligible flag `verbose`, as registered by
`Bool(&p, "verbose", false, "talk more", true)`. -/
def verboseFlag : Flag :=
  { name := "verbose", description := "talk more", defValue := "false",
    short := true, value := Val.boolV false }

/-- A command with a boolean flag `verbose`, as produced by
`NewCommand` plus `Bool(&p, "verbose", false, "talk more", true)`. -/
def verboseCmd : Command :=
  { name := "demo",
    formal := [helpFlag, verboseFlag],
    actual := [], args := [], children := [],
    errorPolicy := ErrorPolicy.ContinueOnError, parsed := false }

/-- A command with a func-backed flag `callback` whose callback always
succeeds, as produced by `Func(fn, "callback", "cb", false)`. -/
def funcCmd : Command :=
  { name := "demo",
    formal := [helpFlag,
      { name := "callback", description := "cb", defValue := "",
        short := false, value := Val.funcV (fun _ => none) }],
    actual := [], args := [], children := [],
    errorPolicy := ErrorPolicy.ContinueOnError, parsed := false }

/-- A root command with child commands `build` and `test`. -/
def rootCmd : Command :=
  { name := "root", formal := [helpFlag], actual := [], args := [],
    children := ["build", "test"],
    errorPolicy := ErrorPolicy.ContinueOnError, parsed := false }

/-- A bare command carrying only the help flag. -/
def justHelpCmd : Command :=
  { name := "demo", formal := [helpFlag], actual := [], args := [], children := [],
    errorPolicy := ErrorPolicy.ContinueOnError, parsed := false }

/-- A command with a boolean short-eligible flag `a` (current value
`a0`) and a non-boolean (int) short-eligible flag `n` (current value
`n0`). -/
def demoCmd (a0 : Bool) (n0 : Int) : Command :=
  { name := "demo",
    formal := [helpFlag,
      { name := "a", description := "apple", defValue := "false",
        short := true, value := Val.boolV a0 },
      { name := "n", description := "number", defValue := "0",
        short := true, value := Val.intV n0 }],
    actual := [], args := [], children := [],
    errorPolicy := ErrorPolicy.ContinueOnError, parsed := false }

/-- `justHelpCmd` with the `LogOnError` policy. -/
def logCmd : Command :=
  { justHelpCmd with errorPolicy := ErrorPolicy.LogOnError }

/-! ### Evaluation checks (the dispatcher and the boxes on concrete
inputs, mirroring the traces used to settle the claims) -/

example :
    countCmd.Parse ["--count=10"] =
      ParseResult.done { countCmd with parsed := true } ["unknown flag: --count"] := rfl

example :
    countCmd.Parse [] = ParseResult.done { countCmd with parsed := true } [] := rfl

example :
    ({ verboseCmd with args := ["--verbose"] } : Command).parseOne =
      ({ verboseCmd with args := [] }, false,
        some "missing value for non-boolean flag: verbose") := rfl

example :
    (({ funcCmd with args := ["--callback"] } : Command).parseOne).2 = (true, none) := rfl

example :
    rootCmd.Parse ["build", "--verbose"] =
      ParseResult.done { rootCmd with args := ["--verbose"], parsed := true } [] := rfl

example :
    justHelpCmd.Parse ["--", "-notaflag"] =
      ParseResult.done { justHelpCmd with parsed := true }
        ["unknown flag: ", "unknown flag: n"] := rfl

example :
    justHelpCmd.Parse ["-"] = ParseResult.done { justHelpCmd with parsed := true } [] := rfl

example :
    justHelpCmd.Parse ["foo", "bar"] =
      ParseResult.done { justHelpCmd with args := ["bar"], parsed := true } [] := rfl

example :
    (demoCmd false 0).Parse ["-an", "5"] =
      ParseResult.done { demoCmd true 5 with parsed := true } [] := rfl

example :
    (({ demoCmd false 0 with args := ["-na"] } : Command).parseOne).2 =
      (false, some "unexpected value for boolean flag: n") := rfl

example : Val.Set (Val.intV 5) "abc" = (Val.intV 0, some "parse error") := rfl

example : Val.Set (Val.intV 5) "10" = (Val.intV 10, none) := rfl

example : Val.Set (Val.boolV true) "nope" = (Val.boolV false, some "parse error") := rfl

example :
    Val.Set (Val.intV 0) "99999999999999999999" =
      (Val.intV (2 ^ 63 - 1), some "value out of range") := rfl

example : Val.Set (Val.intV 0) "0x1f" = (Val.intV 31, none) := rfl

example : Val.Set (Val.intV 0) "-12" = (Val.intV (-12), none) := rfl

example : Val.Set (Val.intV 0) "1_0" = (Val.intV 10, none) := rfl

example : Val.Set (Val.intV 0) "_10" = (Val.intV 0, some "parse error") := rfl

/-- The `countCmd` fixture is exactly what registration through the
source's constructors builds. -/
theorem countCmd_is_registered :
    (NewCommand "help" "demo" ErrorPolicy.ContinueOnError).bind
      (fun c => c.Var "help" (Val.intV 5) "count" "a count" false) =
    Except.ok countCmd := rfl

/-- Likewise for the `verboseCmd` fixture. -/
theorem verboseCmd_is_registered :
    (NewCommand "help" "demo" ErrorPolicy.ContinueOnError).bind
      (fun c => c.Var "help" (Val.boolV false) "verbose" "talk more" true) =
    Except.ok verboseCmd := rfl

/-! ### Supporting lemmas: values carried by `strconv` errors -/

/-- Every syntax-error return of the digit loop carries the value 0,
and every range-error return carries `maxVal`. -/
theorem puLoop_err_val (base maxVal cutoff : Nat) (cs : List Char) :
    ∀ (sawU : Bool) (n : Nat),
      ((puLoop base maxVal cutoff sawU n cs).2.2 = some NumErr.malformed →
        (puLoop base maxVal cutoff sawU n cs).1 = 0) ∧
      ((puLoop base maxVal cutoff sawU n cs).2.2 = some NumErr.outOfRange →
        (puLoop base maxVal cutoff sawU n cs).1 = maxVal) := by
  induction cs with
  | nil =>
    intro sawU n
    refine ⟨fun h => ?_, fun h => ?_⟩ <;> simp [puLoop] at h
  | cons ch rest ih =>
    intro sawU n
    by_cases hc : ch = '_'
    · simpa only [puLoop, if_pos hc] using ih true n
    · rcases hd : decodeDigit ch with _ | d
      · simp [puLoop, if_neg hc, hd]
      · by_cases hb : base ≤ d
        · simp [puLoop, if_neg hc, hd, if_pos hb]
        · by_cases hcut : cutoff ≤ n
          · simp [puLoop, if_neg hc, hd, if_neg hb, if_pos hcut]
          · by_cases hover : maxVal < n * base + d
            · simp [puLoop, if_neg hc, hd, if_neg hb, if_neg hcut, if_pos hover]
            · simpa only [puLoop, if_neg hc, hd, if_neg hb, if_neg hcut, if_neg hover]
                using ih sawU (n * base + d)

/-- A syntax error from `ParseUint` carries the value 0; a range error
carries the clamped maximum. -/
theorem goParseUint64_err_val (s : List Char) :
    ((goParseUint64 s).2 = some NumErr.malformed → (goParseUint64 s).1 = 0) ∧
    ((goParseUint64 s).2 = some NumErr.outOfRange → (goParseUint64 s).1 = 2 ^ 64 - 1) := by
  cases s with
  | nil => exact ⟨fun _ => rfl, fun h => by simp [goParseUint64] at h⟩
  | cons c cs =>
    have hp := puLoop_err_val (pickBase (c :: cs)).1 (2 ^ 64 - 1)
      ((2 ^ 64 - 1) / (pickBase (c :: cs)).1 + 1) (pickBase (c :: cs)).2 false 0
    simp only [goParseUint64]
    rcases hr : (puLoop (pickBase (c :: cs)).1 (2 ^ 64 - 1)
        ((2 ^ 64 - 1) / (pickBase (c :: cs)).1 + 1) false 0 (pickBase (c :: cs)).2).2.2 with _ | e
    · simp only [hr]
      constructor
      · intro h
        split_ifs at h ⊢ with hsplit
        all_goals simp_all
      · intro h
        split_ifs at h with hsplit
        all_goals simp_all
    · simp only [hr]
      cases e with
      | malformed => exact ⟨fun _ => hp.1 hr, fun h => by simp at h⟩
      | outOfRange => exact ⟨fun h => by simp at h, fun _ => hp.2 hr⟩

/-- `signClamp` never reports a syntax error unless handed one. -/
theorem signClamp_ne_malformed (neg : Bool) (un : Nat) (e : Option NumErr)
    (he : e ≠ some NumErr.malformed) :
    (signClamp neg un e).2 ≠ some NumErr.malformed := by
  unfold signClamp
  split_ifs <;> simp_all

/-- A range error out of `signClamp` carries a clamped bound
(assuming the incoming magnitude is the `ParseUint` clamp whenever the
incoming error is already a range error). -/
theorem signClamp_range_val (neg : Bool) (un : Nat) (e : Option NumErr)
    (hu : e = some NumErr.outOfRange → un = 2 ^ 64 - 1) :
    (signClamp neg un e).2 = some NumErr.outOfRange →
    (signClamp neg un e).1 = (2 : Int) ^ 63 - 1 ∨
      (signClamp neg un e).1 = -((2 : Int) ^ 63) := by
  unfold signClamp
  split_ifs with hC1 hC2 hN
  · intro _
    left
    norm_num
  · intro _
    right
    rfl
  · intro h
    exact absurd ⟨hN, by rw [hu h]; norm_num⟩ hC2
  · intro h
    exact absurd ⟨hN, by rw [hu h]; norm_num⟩ hC1

/-- A syntax error from `ParseInt` carries the value 0. -/
theorem goParseInt64_malformed_val (s : String) :
    (goParseInt64 s).2 = some NumErr.malformed → (goParseInt64 s).1 = 0 := by
  intro h
  cases hs : s.data with
  | nil => simp [goParseInt64, hs]
  | cons c cs =>
    simp only [goParseInt64, hs] at h ⊢
    rcases hr : (goParseUint64 (if c = '+' ∨ c = '-' then cs else c :: cs)).2 with _ | e
    · simp only [hr] at h
      exact absurd h (signClamp_ne_malformed _ _ _ (by simp))
    · cases e with
      | malformed => simp [hr]
      | outOfRange =>
        simp only [hr] at h
        exact absurd h (signClamp_ne_malformed _ _ _ (by simp))

/-- A range error from `ParseInt` carries a clamped bound. -/
theorem goParseInt64_range_val (s : String) :
    (goParseInt64 s).2 = some NumErr.outOfRange →
    (goParseInt64 s).1 = (2 : Int) ^ 63 - 1 ∨ (goParseInt64 s).1 = -((2 : Int) ^ 63) := by
  intro h
  cases hs : s.data with
  | nil => simp [goParseInt64, hs] at h
  | cons c cs =>
    simp only [goParseInt64, hs] at h ⊢
    rcases hr : (goParseUint64 (if c = '+' ∨ c = '-' then cs else c :: cs)).2 with _ | e
    · simp only [hr] at h ⊢
      exact signClamp_range_val _ _ _ (by simp) h
    · cases e with
      | malformed => simp [hr] at h
      | outOfRange =>
        have h0 := (goParseUint64_err_val _).2 hr
        simp only [hr] at h ⊢
        exact signClamp_range_val _ _ _ (fun _ => h0) h

/-- A failed `ParseBool` carries the value `false`. -/
theorem goParseBool_err_val (s : String) :
    (goParseBool s).2 = true → (goParseBool s).1 = false := by
  unfold goParseBool
  split_ifs with h1 h2
  · intro h
    simp at h
  · intro _
    rfl
  · intro _
    rfl

/-! ### Supporting lemmas: the short-collision scan of `Var` -/

/-- When every colliding registered flag is the designated help flag,
the scan succeeds, revoking exactly the colliding flags'
short-eligibility. -/
theorem shortScan_ok (helpName newName : String) (l : List Flag)
    (h : ∀ f ∈ l, collides newName f = true → f.name = helpName) :
    shortScan helpName newName l =
      Except.ok (l.map (fun f =>
        if collides newName f then { f with short := false } else f)) := by
  induction l with
  | nil => rfl
  | cons f rest ih =>
    have hrest := ih (fun g hg hc => h g (List.mem_cons_of_mem _ hg) hc)
    by_cases hc : collides newName f = true
    · have hf : (f.name == helpName) = true := by
        simp [h f (List.mem_cons_self _ _) hc]
      simp [shortScan, hc, hf, hrest]
    · simp [shortScan, hc, hrest]

/-- When some colliding registered flag is NOT the designated help
flag, the scan fails. -/
theorem shortScan_err (helpName newName : String) (l : List Flag)
    (h : ∃ f ∈ l, collides newName f = true ∧ f.name ≠ helpName) :
    ∃ e, shortScan helpName newName l = Except.error e := by
  induction l with
  | nil =>
    obtain ⟨f, hf, _⟩ := h
    simp at hf
  | cons f rest ih =>
    obtain ⟨g, hg, hc, hne⟩ := h
    rcases List.mem_cons.mp hg with rfl | hg'
    · have hh : (g.name == helpName) = false := by simp [hne]
      exact ⟨"Short name collision between \"" ++ newName ++ "\" and \"" ++ g.name ++ "\" flags",
        by simp [shortScan, hc, hh]⟩
    · obtain ⟨e, he⟩ := ih ⟨g, hg', hc, hne⟩
      by_cases hch : collides newName f = true
      · by_cases hh : (f.name == helpName) = true
        · exact ⟨e, by simp [shortScan, hch, hh, he]⟩
        · exact ⟨"Short name collision between \"" ++ newName ++ "\" and \"" ++ f.name ++ "\" flags",
            by simp [shortScan, hch, hh]⟩
      · exact ⟨e, by simp [shortScan, hch, he]⟩

/-! ### The claims -/

/-- C1: evaluation at the claimed input.  Against an int flag `count`
with default 5, parsing `["--count=10"]` does NOT store 10 and does
NOT record `count` in the actual set: the `=` branch hands the
unstripped token head `"--count"` to `accepts`, which matches no
formal flag, so the dispatcher fails with an unknown-flag error; the
box keeps 5 and the actual set stays empty (no `parseOne` path ever
inserts into it).  With no tokens, `count` is — as the claim's second
half says — absent from the actual set. -/
theorem parse_eq_pair_unknown_flag :
    countCmd.Parse ["--count=10"] =
        ParseResult.done { countCmd with parsed := true } ["unknown flag: --count"] ∧
    countCmd.flagVal "count" = some (Val.intV 5) ∧
    countCmd.actual = [] ∧
    countCmd.Parse [] = ParseResult.done { countCmd with parsed := true } [] :=
  ⟨rfl, rfl, rfl, rfl⟩

/-- C2: evaluation refuting the long-flag rule.  `--verbose` against
the registered boolean flag `verbose` does not set it to true: `Get()`
returns a bare primitive that never satisfies the `boolFlag`
assertion, so the dispatcher reports the missing-value error and the
box keeps its value; nothing is marked set.  The only box passing the
assertion is the func-backed one, for which the same token form
succeeds. -/
theorem parse_long_bool_missing_value :
    verboseCmd.Parse ["--verbose"] =
        ParseResult.done { verboseCmd with parsed := true }
          ["missing value for non-boolean flag: verbose"] ∧
    ({ verboseCmd with args := ["--verbose"] } : Command).parseOne =
        ({ verboseCmd with args := [] }, false,
          some "missing value for non-boolean flag: verbose") ∧
    (({ funcCmd with args := ["--callback"] } : Command).parseOne).2 = (true, none) :=
  ⟨rfl, rfl, rfl⟩

/-- C3: evaluation refuting subcommand dispatch.  On a root with
children `build` and `test`, parsing `["build", "--verbose"]` never
delegates — every return path of the source's `parseOne` yields a nil
child command, so `Parse`'s `child != nil` branch is dead; `"build"`
is consumed and dropped and the root itself retains `["--verbose"]`
as its residual argument list, which the claim requires to be empty. -/
theorem parse_no_child_dispatch :
    rootCmd.children = ["build", "test"] ∧
    rootCmd.Parse ["build", "--verbose"] =
        ParseResult.done { rootCmd with args := ["--verbose"], parsed := true } [] ∧
    (["--verbose"] : List String) ≠ [] :=
  ⟨rfl, rfl, by simp⟩

/-- C4: for a command whose policy is `LogOnError`, the `Handle` gate
does NOT merely emit the message: the source's switch has no
`LogOnError` case, so the call falls into the `default` branch and
panics with "unrecognized error policy".  The gate IS a no-op when
the error is absent (second conjunct, for an arbitrary command). -/
theorem handle_logOnError_panics (c c' : Command) (e : String)
    (hp : c.errorPolicy = ErrorPolicy.LogOnError) :
    c.Handle (some e) = HandleOut.fatal "unrecognized error policy" ∧
    c'.Handle none = HandleOut.proceed [] := by
  constructor
  · simp [Command.Handle, hp]
  · rfl

/-- C4 witness. -/
theorem handle_logOnError_panics_witness :
    logCmd.Handle (some "boom") = HandleOut.fatal "unrecognized error policy" ∧
    logCmd.Handle none = HandleOut.proceed [] :=
  handle_logOnError_panics logCmd logCmd "boom" rfl

/-- C5: evaluation refuting the positional-argument rule.  `--` is not
a terminator: it is parsed as a long flag with empty name and fails
with an unknown-flag error, and `-notaflag` is then scanned as a short
cluster failing on `n` — so `["--", "-notaflag"]` ends with an EMPTY
positional list and two logged errors rather than the single
positional `-notaflag`.  A bare `-` is silently swallowed (an empty
cluster, reported as seen), not collected; and a leading non-flag
token (`foo`) is dropped, with only the remainder left in `args`. -/
theorem parse_terminator_swallowed :
    justHelpCmd.Parse ["--", "-notaflag"] =
        ParseResult.done { justHelpCmd with parsed := true }
          ["unknown flag: ", "unknown flag: n"] ∧
    justHelpCmd.Parse ["-"] = ParseResult.done { justHelpCmd with parsed := true } [] ∧
    justHelpCmd.Parse ["foo", "bar"] =
        ParseResult.done { justHelpCmd with args := ["bar"], parsed := true } [] :=
  ⟨rfl, rfl, rfl⟩

/-- C6 counterexample: `set` does NOT leave the previous value
undisturbed on failure.  The int box holding 5 ends at 0 after the
failing `set("abc")`. -/
theorem set_abc_overwrites_counterexample :
    Val.Set (Val.intV 5) "abc" = (Val.intV 0, some "parse error") ∧
    Val.intV 0 ≠ Val.intV 5 :=
  ⟨rfl, by simp⟩

/-- C6 (amended): a failing `set` overwrites the box with the
converter's result instead of preserving the previous value: the int
box stores 0 on a parse error and a clamped bound on a range error;
the bool box stores `false` on a parse error.  (The claim's parsing
example `["--count=abc"]` fails before `set` is ever reached — with
the unknown-flag error of C1 — and only therefore leaves `count`
unchanged.) -/
theorem set_failure_stores_converter_result (p : Int) (b : Bool) (s : String) :
    ((Val.Set (Val.intV p) s).2 = some errParseMsg →
      (Val.Set (Val.intV p) s).1 = Val.intV 0) ∧
    ((Val.Set (Val.intV p) s).2 = some errRangeMsg →
      (Val.Set (Val.intV p) s).1 = Val.intV ((2 : Int) ^ 63 - 1) ∨
        (Val.Set (Val.intV p) s).1 = Val.intV (-((2 : Int) ^ 63))) ∧
    ((Val.Set (Val.boolV b) s).2 = some errParseMsg →
      (Val.Set (Val.boolV b) s).1 = Val.boolV false) := by
  refine ⟨fun h => ?_, fun h => ?_, fun h => ?_⟩
  · simp only [Val.Set] at h ⊢
    rcases he : (goParseInt64 s).2 with _ | e
    · simp [he] at h
    · cases e with
      | malformed => simp [goParseInt64_malformed_val s he]
      | outOfRange =>
        rw [he] at h
        simp [numErrMsg, errRangeMsg, errParseMsg] at h
  · simp only [Val.Set] at h ⊢
    rcases he : (goParseInt64 s).2 with _ | e
    · simp [he] at h
    · cases e with
      | malformed =>
        rw [he] at h
        simp [numErrMsg, errRangeMsg, errParseMsg] at h
      | outOfRange =>
        rcases goParseInt64_range_val s he with hv | hv
        · left; simp [hv]
        · right; simp [hv]
  · simp only [Val.Set] at h ⊢
    by_cases hb : (goParseBool s).2 = true
    · simp [goParseBool_err_val s hb]
    · simp [hb] at h

/-- C6 witness. -/
theorem set_failure_stores_converter_result_witness :
    (Val.Set (Val.intV 5) "abc").1 = Val.intV 0 ∧
    ((Val.Set (Val.intV 5) "99999999999999999999").1 = Val.intV ((2 : Int) ^ 63 - 1) ∨
      (Val.Set (Val.intV 5) "99999999999999999999").1 = Val.intV (-((2 : Int) ^ 63))) ∧
    (Val.Set (Val.boolV true) "abc").1 = Val.boolV false :=
  ⟨(set_failure_stores_converter_result 5 true "abc").1 rfl,
    (set_failure_stores_converter_result 5 true "99999999999999999999").2.1 rfl,
    (set_failure_stores_converter_result 5 true "abc").2.2 rfl⟩

/-- C7: with a boolean short-eligible flag `a` and a non-boolean
short-eligible flag `n`, `["-an", "5"]` sets `a` to true, feeds `"5"`
to `n`'s box (consuming it from the stream, since `n` ends the
cluster), and leaves no positional arguments; a non-boolean short
flag that is not the final character of its cluster (`["-na"]`) is an
error. -/
theorem parse_short_cluster_trailing_value (a0 : Bool) (n0 : Int) :
    (demoCmd a0 n0).Parse ["-an", "5"] =
        ParseResult.done { demoCmd true 5 with parsed := true } [] ∧
    (({ demoCmd a0 n0 with args := ["-na"] } : Command).parseOne).2 =
      (false, some "unexpected value for boolean flag: n") :=
  ⟨rfl, rfl⟩

/-- C8: registering a short-eligible flag whose name shares its first
byte with an already-registered short-eligible flag is a fatal
configuration error, unless every such colliding flag is the
designated help flag, in which case the help flag's short-eligibility
is silently revoked and the registration succeeds, appending the new
flag. -/
theorem var_short_collision_help_exception
    (helpName nm usage : String) (v : Val) (c : Command)
    (hdash : startsWithChars ['-'] nm.data = false)
    (heqs : hasChar nm '=' = false)
    (hdup : c.formal.any (fun f => f.name == nm) = false) :
    ((∃ f ∈ c.formal, collides nm f = true ∧ f.name ≠ helpName) →
      ∃ e, c.Var helpName v nm usage true = Except.error e) ∧
    ((∀ f ∈ c.formal, collides nm f = true → f.name = helpName) →
      c.Var helpName v nm usage true =
        Except.ok { c with formal :=
          (c.formal.map (fun f =>
            if collides nm f then { f with short := false } else f)) ++
            [{ name := nm, description := usage, defValue := v.render, short := true,
               value := v }] }) := by
  constructor
  · intro h
    obtain ⟨e, he⟩ := shortScan_err helpName nm c.formal h
    exact ⟨e, by simp [Command.Var, hdash, heqs, hdup, he]⟩
  · intro h
    simp [Command.Var, hdash, heqs, hdup, shortScan_ok helpName nm c.formal h]

/-- C8 witness: `version` against short-eligible `verbose` collides
fatally; `hello` against the short-eligible help flag succeeds. -/
theorem var_short_collision_help_exception_witness :
    (∃ e, verboseCmd.Var "help" (Val.boolV false) "version" "v" true = Except.error e) ∧
    (∃ c', justHelpCmd.Var "help" (Val.boolV false) "hello" "h" true = Except.ok c') := by
  constructor
  · exact (var_short_collision_help_exception "help" "version" "v" (Val.boolV false)
      verboseCmd rfl rfl rfl).1
      ⟨verboseFlag, List.mem_cons_of_mem _ (List.mem_cons_self _ _), rfl, by decide⟩
  · refine ⟨_, (var_short_collision_help_exception "help" "hello" "h" (Val.boolV false)
      justHelpCmd rfl rfl rfl).2 ?_⟩
    intro f hf _
    rw [show justHelpCmd.formal = [helpFlag] from rfl, List.mem_singleton] at hf
    subst hf
    rfl

/-- C10: `NewCommand` registers a boolean, short-eligible flag named
by the designated help-flag name with default `false` — except when
the command's own name IS the help-flag name, in which case no flag
is registered. -/
theorem newCommand_registers_help_flag (helpName nm : String) (p : ErrorPolicy)
    (h1 : startsWithChars ['-'] helpName.data = false)
    (h2 : hasChar helpName '=' = false) :
    (nm ≠ helpName →
      NewCommand helpName nm p = Except.ok
        { name := nm,
          formal := [{ name := helpName, description := "print this message",
                       defValue := "false", short := true, value := Val.boolV false }],
          actual := [], args := [], children := [], errorPolicy := p, parsed := false }) ∧
    (nm = helpName →
      NewCommand helpName nm p = Except.ok
        { name := nm, formal := [], actual := [], args := [], children := [],
          errorPolicy := p, parsed := false }) := by
  constructor
  · intro hne
    have hb : (nm != helpName) = true := by simp [hne]
    simp [NewCommand, hb, Command.Var, h1, h2, shortScan, Val.render]
  · intro heq
    simp [NewCommand, heq]

/-- C10 witness. -/
theorem newCommand_registers_help_flag_witness :
    NewCommand "help" "demo" ErrorPolicy.ContinueOnError = Except.ok
      { name := "demo",
        formal := [{ name := "help", description := "print this message",
                     defValue := "false", short := true, value := Val.boolV false }],
        actual := [], args := [], children := [],
        errorPolicy := ErrorPolicy.ContinueOnError, parsed := false } ∧
    NewCommand "help" "help" ErrorPolicy.ContinueOnError = Except.ok
      { name := "help", formal := [], actual := [], args := [], children := [],
        errorPolicy := ErrorPolicy.ContinueOnError, parsed := false } :=
  ⟨(newCommand_registers_help_flag "help" "demo" ErrorPolicy.ContinueOnError rfl rfl).1
      (by decide),
    (newCommand_registers_help_flag "help" "help" ErrorPolicy.ContinueOnError rfl rfl).2 rfl⟩

end Mandy
